import Mathlib

/-!
# Verification of the birdnet-go alerting engine

Shallow embedding of `internal/alerting` (condition evaluation, metric
tracker, rules engine, event bus) and proofs of the specification claims.

Conventions:
* Go `time.Time` / `time.Duration` are modelled as `Int` nanoseconds
  (`time.Time.IsZero` becomes `= 0`, the zero instant).
* Go `float64` values are modelled as `ℚ`; the Go standard library
  functions the code calls (`strconv.ParseFloat`, `fmt.Sprintf "%v"`,
  `encoding/json.Marshal`) are abstracted as parameters, bundled in
  `GoStdlib` / `GoMarshal`, since they are not part of this repository.
* Go maps read with a default value are modelled as total functions.
-/

namespace Alerting

/-- One second in nanoseconds (Go `time.Second`). -/
def second : Int := 1000000000

/-- Go `time.Minute` in nanoseconds. -/
def minute : Int := 60 * second

/-! ## Constants (from `internal/alerting` constants file) -/

def ObjectTypeStream : String := "stream"
def ObjectTypeDetection : String := "detection"
def ObjectTypeSystem : String := "system"

def TriggerTypeEvent : String := "event"
def TriggerTypeMetric : String := "metric"

def EventDetectionNewSpecies : String := "detection.new_species"

def MetricCPUUsage : String := "system.cpu_usage"

def OperatorIs : String := "is"
def OperatorIsNot : String := "is_not"
def OperatorContains : String := "contains"
def OperatorNotContains : String := "not_contains"
def OperatorGreaterThan : String := "greater_than"
def OperatorLessThan : String := "less_than"
def OperatorGreaterOrEqual : String := "greater_or_equal"
def OperatorLessOrEqual : String := "less_or_equal"

def PropertyValue : String := "value"

/-! ## Go dynamic values (`any` property values) -/

/-- A Go `any` value as stored in an event's property map.  The cases are
the ones `toFloat64` distinguishes; all Go integer widths collapse to
`int`. -/
inductive GoValue
  | str (s : String)
  | float (q : ℚ)
  | int (n : ℤ)
  | bool (b : Bool)
deriving DecidableEq

/-- An event property map (`map[string]any`), as an association list. -/
abbrev Props := List (String × GoValue)

/-- Abstraction of the Go standard library functions called by the
alerting code: `strconv.ParseFloat` and `fmt.Sprintf "%v"`.  The law
`format_str` records that `%v` formatting of a `string` value is the
string itself. -/
structure GoStdlib where
  parseFloat : String → Option ℚ
  formatValue : GoValue → String
  format_str : ∀ s, formatValue (GoValue.str s) = s

/-- Abstraction of `encoding/json.Marshal` on the two shapes the engine
marshals: event property maps and rule action lists.  `none` models a
marshal error. -/
structure GoMarshal (Action : Type) where
  props : Props → Option String
  actions : List Action → Option String

/-! ## Go `strings` helpers -/

/-- Does `needle` occur at the very start of `hay`? -/
def matchesAt : List Char → List Char → Bool
  | [], _ => true
  | _ :: _, [] => false
  | a :: as, b :: bs => a == b && matchesAt as bs

/-- Substring test on character lists (Go `strings.Contains` after
`toList`). -/
def listContains (needle : List Char) : List Char → Bool
  | [] => needle.isEmpty
  | c :: t => matchesAt needle (c :: t) || listContains needle t

/-- Lowercased character list of a string (Go `strings.ToLower`; ASCII
case mapping, which covers every string the claims exercise). -/
def lowerChars (s : String) : List Char :=
  s.toList.map Char.toLower

/-- Go `strings.Contains s sub`. -/
def goContains (s sub : String) : Bool :=
  listContains sub.toList s.toList

/-- Go `strings.EqualFold`, modelled as case-insensitive comparison via
lowercasing. -/
def goEqualFold (a b : String) : Bool :=
  lowerChars a == lowerChars b

/-! ## Entities (from `internal/datastore/v2/entities`) -/

/-- One condition of an alert rule. -/
structure AlertCondition where
  property : String
  operator : String
  value : String
  durationSec : Int
deriving DecidableEq

/-- One action of an alert rule. -/
structure AlertAction where
  target : String
  templateTitle : String
  templateMessage : String
deriving DecidableEq

/-- An alert rule. -/
structure AlertRule where
  id : Nat
  name : String
  enabled : Bool
  objectType : String
  triggerType : String
  eventName : String
  metricName : String
  cooldownSec : Int
  conditions : List AlertCondition
  actions : List AlertAction
deriving DecidableEq

/-- An incoming alert event. -/
structure AlertEvent where
  objectType : String
  eventName : String
  metricName : String
  properties : Props
  timestamp : Int
deriving DecidableEq

/-- A persisted history row, written when a rule fires. -/
structure AlertHistory where
  ruleID : Nat
  firedAt : Int
  eventData : String
  actions : String
deriving DecidableEq

/-! ## Condition evaluation (`EvaluateConditions` and helpers) -/

/-- `toFloat64`: coerce a Go `any` value to a float; strings go through
`strconv.ParseFloat`, unsupported types (here `bool`) fail. -/
def toFloat64 (std : GoStdlib) : GoValue → Option ℚ
  | GoValue.float q => some q
  | GoValue.int n => some (n : ℚ)
  | GoValue.str s => std.parseFloat s
  | GoValue.bool _ => none

/-- `evaluateNumeric`: numeric comparison of a property value against the
condition's value string; either conversion failing yields `false`. -/
def evaluateNumeric (std : GoStdlib) (operator : String) (propVal : GoValue)
    (condVal : String) : Bool :=
  match toFloat64 std propVal with
  | none => false
  | some propFloat =>
    match std.parseFloat condVal with
    | none => false
    | some condFloat =>
      if operator = OperatorGreaterThan then decide (propFloat > condFloat)
      else if operator = OperatorLessThan then decide (propFloat < condFloat)
      else if operator = OperatorGreaterOrEqual then decide (propFloat ≥ condFloat)
      else if operator = OperatorLessOrEqual then decide (propFloat ≤ condFloat)
      else false

/-- `evaluateCondition`: evaluate one condition against the property map.
A missing property never matches; an unknown operator never matches. -/
def evaluateCondition (std : GoStdlib) (cond : AlertCondition)
    (properties : Props) : Bool :=
  match properties.lookup cond.property with
  | none => false
  | some propVal =>
    let propStr := std.formatValue propVal
    let condVal := cond.value
    if cond.operator = OperatorIs then goEqualFold propStr condVal
    else if cond.operator = OperatorIsNot then !goEqualFold propStr condVal
    else if cond.operator = OperatorContains then
      listContains (lowerChars condVal) (lowerChars propStr)
    else if cond.operator = OperatorNotContains then
      !listContains (lowerChars condVal) (lowerChars propStr)
    else if cond.operator = OperatorGreaterThan ∨ cond.operator = OperatorLessThan ∨
        cond.operator = OperatorGreaterOrEqual ∨ cond.operator = OperatorLessOrEqual then
      evaluateNumeric std cond.operator propVal condVal
    else false

/-- `EvaluateConditions`: all conditions must match (AND); the loop
returns `false` at the first failing condition. -/
def EvaluateConditions (std : GoStdlib) :
    List AlertCondition → Props → Bool
  | [], _ => true
  | c :: rest, properties =>
    if evaluateCondition std c properties then
      EvaluateConditions std rest properties
    else false

/-! ## Concrete standard-library model (used by witnesses) -/

/-- Accumulate the decimal digits of a character list into a number;
any non-digit character is a parse error. -/
def digitsToNat (acc : Nat) : List Char → Option Nat
  | [] => some acc
  | c :: rest =>
    if c.isDigit then digitsToNat (acc * 10 + (c.toNat - 48)) rest else none

/-- Concrete model of `strconv.ParseFloat`, faithful on the unsigned
decimal integers the witnesses use ("5", "80", ...); any other string is
a parse error. -/
def parseFloatModel (s : String) : Option ℚ :=
  if s.toList.isEmpty then none
  else (digitsToNat 0 s.toList).map (fun n => (n : ℚ))

/-- Concrete model of `fmt.Sprintf "%v"`. -/
def formatValueModel : GoValue → String
  | GoValue.str s => s
  | GoValue.float q => toString q
  | GoValue.int n => toString n
  | GoValue.bool b => toString b

/-- Concrete `GoStdlib` instance for witnesses. -/
def stdlibModel : GoStdlib where
  parseFloat := parseFloatModel
  formatValue := formatValueModel
  format_str := fun _ => rfl

/-! ## Metric tracker (`metric_tracker.go`) -/

/-- `maxSamplesPerMetric`: maximum number of samples retained per metric. -/
def maxSamplesPerMetric : Nat := 120

/-- `maxSampleAge`: maximum age of a sample before eviction (30 minutes,
in nanoseconds). -/
def maxSampleAge : Int := 30 * minute

/-- A single timestamped metric value. -/
structure metricSample where
  value : ℚ
  timestamp : Int
deriving DecidableEq

/-- The tracker's per-metric buffers: a Go map read with the nil-slice
default, modelled as a total function. -/
def MetricTracker := String → List metricSample

/-- The empty tracker (`NewMetricTracker`). -/
def NewMetricTracker : MetricTracker := fun _ => []

/-- The front-eviction loop of `Record`: advance `start` past the leading
samples strictly older than `cutoff`, dropping that maximal leading run. -/
def evictOldSamples (cutoff : Int) : List metricSample → List metricSample
  | [] => []
  | s :: rest =>
    if s.timestamp < cutoff then evictOldSamples cutoff rest else s :: rest

/-- `Record`: append a sample, evict the leading samples older than
`maxSampleAge`, then truncate from the front to `maxSamplesPerMetric`. -/
def Record (t : MetricTracker) (metricName : String) (value : ℚ)
    (timestamp : Int) : MetricTracker :=
  let samples := t metricName ++ [⟨value, timestamp⟩]
  let cutoff := timestamp - maxSampleAge
  let samples := evictOldSamples cutoff samples
  let samples :=
    if samples.length > maxSamplesPerMetric then
      samples.drop (samples.length - maxSamplesPerMetric)
    else samples
  fun name => if name = metricName then samples else t name

/-- The in-window selection loop of `IsSustained`: samples with
`windowStart ≤ timestamp ≤ now`, in buffer order. -/
def windowSamples (samples : List metricSample) (windowStart now : Int) :
    List metricSample :=
  samples.filter fun s =>
    decide (windowStart ≤ s.timestamp) && decide (s.timestamp ≤ now)

/-- `compareFloat`: compare a sample value against the threshold with the
given operator string; unknown operators yield `false`. -/
def compareFloat (value : ℚ) (operator : String) (threshold : ℚ) : Bool :=
  if operator = OperatorGreaterThan then decide (value > threshold)
  else if operator = OperatorLessThan then decide (value < threshold)
  else if operator = OperatorGreaterOrEqual then decide (value ≥ threshold)
  else if operator = OperatorLessOrEqual then decide (value ≤ threshold)
  else false

/-- `IsSustained`: the condition has held continuously for `duration`
before `now`.  Empty buffer or unparseable value or empty window returns
`false`; the first in-window sample must lie within the 20% grace period
of the window start (`duration / 5`, Go truncated division); every
in-window sample must satisfy the comparison. -/
def IsSustained (parse : String → Option ℚ) (t : MetricTracker)
    (metricName operator value : String) (duration now : Int) : Bool :=
  if (t metricName).isEmpty then false
  else
    match parse value with
    | none => false
    | some threshold =>
      -- windowStart is (now - duration); grace is (duration / 5)
      match windowSamples (t metricName) (now - duration) now with
      | [] => false
      | first :: rest =>
        if decide (first.timestamp > (now - duration) + duration.tdiv 5) then false
        else (first :: rest).all fun s => compareFloat s.value operator threshold

/-! ## Rules engine (`Engine`) -/

/-- The engine's mutable state: the cached rules, the in-memory cooldown
map (rule ID to last-fired time), the metric tracker, and whether an
action function was registered (`actionFunc != nil`). -/
structure Engine where
  rules : List AlertRule
  cooldowns : Nat → Option Int
  tracker : MetricTracker
  hasActionFunc : Bool

/-- `isInCooldown`: `cooldownSec <= 0` never blocks; a rule with no
recorded fire never blocks; otherwise firing is blocked while
`now - lastFired < cooldownSec` (in nanoseconds). -/
def isInCooldown (e : Engine) (ruleID : Nat) (cooldownSec : Int)
    (now : Int) : Bool :=
  if cooldownSec ≤ 0 then false
  else
    match e.cooldowns ruleID with
    | none => false
    | some lastFired => decide (now - lastFired < cooldownSec * second)

/-- The observable outcome of one `fireRule` call: the history row it
built, whether the save succeeded, and whether the action dispatch was
invoked. -/
structure FireOutcome where
  history : AlertHistory
  saved : Bool
  dispatched : Bool
deriving DecidableEq

/-- `fireRule`: record the cooldown, build and save the history row
(marshal failures degrade to the `"\x7b\x7d"` / `"[]"` placeholders, a save
failure is only logged), then invoke the action dispatch when an action
function is registered.  `saveOk` models the repository call's success. -/
def fireRule (marshal : GoMarshal AlertAction) (saveOk : Bool) (e : Engine)
    (rule : AlertRule) (event : AlertEvent) (now : Int) :
    Engine × FireOutcome :=
  let cooldowns' := fun id => if id = rule.id then some now else e.cooldowns id
  let eventJSON :=
    match marshal.props event.properties with
    | some s => s
    | none => "\x7b\x7d"
  let actionsJSON :=
    match marshal.actions rule.actions with
    | some s => s
    | none => "[]"
  let history : AlertHistory :=
    { ruleID := rule.id, firedAt := now,
      eventData := eventJSON, actions := actionsJSON }
  ({ e with cooldowns := cooldowns' },
   { history := history, saved := saveOk, dispatched := e.hasActionFunc })

/-- `evaluateMetricConditions`: each condition with a positive duration is
a sustained-threshold check at the event's timestamp; the others are
instant checks against the event's properties. -/
def evaluateMetricConditions (std : GoStdlib) (e : Engine)
    (rule : AlertRule) (event : AlertEvent) : Bool :=
  rule.conditions.all fun cond =>
    if cond.durationSec > 0 then
      IsSustained std.parseFloat e.tracker rule.metricName cond.operator
        cond.value (cond.durationSec * second) event.timestamp
    else evaluateCondition std cond event.properties

/-- `ruleMatches`: object type, then trigger (event name or metric name),
then conditions; metric triggers use `evaluateMetricConditions`. -/
def ruleMatches (std : GoStdlib) (e : Engine) (rule : AlertRule)
    (event : AlertEvent) : Bool :=
  if rule.objectType ≠ event.objectType then false
  else if rule.triggerType = TriggerTypeEvent then
    if rule.eventName ≠ event.eventName then false
    else EvaluateConditions std rule.conditions event.properties
  else if rule.triggerType = TriggerTypeMetric then
    if rule.metricName ≠ event.metricName then false
    else evaluateMetricConditions std e rule event
  else false

/-- The metric-recording prologue of `HandleEvent`: a metric event whose
`value` property coerces to a float is recorded once before rules run. -/
def recordMetric (std : GoStdlib) (e : Engine) (event : AlertEvent) :
    Engine :=
  if event.metricName ≠ "" then
    match event.properties.lookup PropertyValue with
    | some v =>
      match toFloat64 std v with
      | some f =>
        { e with tracker := Record e.tracker event.metricName f event.timestamp }
      | none => e
    | none => e
  else e

/-- The rule-iteration loop of `HandleEvent`: fire each matching rule not
in cooldown, threading the cooldown updates, collecting fire outcomes. -/
def handleRules (std : GoStdlib) (marshal : GoMarshal AlertAction)
    (saveOk : Bool) (event : AlertEvent) (now : Int) :
    Engine → List AlertRule → Engine × List (AlertRule × FireOutcome)
  | e, [] => (e, [])
  | e, rule :: rest =>
    if ruleMatches std e rule event &&
        !isInCooldown e rule.id rule.cooldownSec now then
      let fired := fireRule marshal saveOk e rule event now
      let tail := handleRules std marshal saveOk event now fired.1 rest
      (tail.1, (rule, fired.2) :: tail.2)
    else handleRules std marshal saveOk event now e rest

/-- `HandleEvent`: record the metric sample once, then evaluate the event
against all cached rules.  `now` models `time.Now()` inside the cooldown
check and `fireRule`. -/
def HandleEvent (std : GoStdlib) (marshal : GoMarshal AlertAction)
    (saveOk : Bool) (e : Engine) (event : AlertEvent) (now : Int) :
    Engine × List (AlertRule × FireOutcome) :=
  let e := recordMetric std e event
  handleRules std marshal saveOk event now e e.rules

/-- `TestFireRule`: fire a rule directly, bypassing condition evaluation
and cooldown checks, with a synthetic event whose properties are
`{"test": true}` and whose timestamp is the current time. -/
def TestFireRule (marshal : GoMarshal AlertAction) (saveOk : Bool)
    (e : Engine) (rule : AlertRule) (now : Int) : Engine × FireOutcome :=
  let event : AlertEvent :=
    { objectType := rule.objectType, eventName := rule.eventName,
      metricName := rule.metricName,
      properties := [("test", GoValue.bool true)], timestamp := now }
  fireRule marshal saveOk e rule event now

/-! ## Event bus (`AlertEventBus`) -/

/-- `eventBusBufferSize`: capacity of the bounded event queue. -/
def eventBusBufferSize : Nat := 1000

/-- Bus state: the stopped flag (`stopCh` closed) and the queued events
(the buffered channel's contents, FIFO). -/
structure BusState where
  stopped : Bool
  queue : List AlertEvent
deriving DecidableEq

/-- `Publish`: discarded when stopped; otherwise an unset (zero)
timestamp is stamped with the current time, and the event is enqueued if
the buffer has room, dropped otherwise.  Returns the new bus state and
the (possibly stamped) event, modelling Go's in-place mutation. -/
def Publish (b : BusState) (e : AlertEvent) (now : Int) :
    BusState × AlertEvent :=
  if b.stopped then (b, e)
  else
    let e' := if e.timestamp = 0 then { e with timestamp := now } else e
    if b.queue.length < eventBusBufferSize then
      ({ b with queue := b.queue ++ [e'] }, e')
    else (b, e')

/-- The drain loop `processLoop` runs after `stopCh` is closed: dispatch
every already-enqueued event, in order, before the worker exits.  Returns
the dispatched events in dispatch order. -/
def drainLoop : List AlertEvent → List AlertEvent
  | [] => []
  | e :: rest => e :: drainLoop rest

/-! ## Specification-side predicates and concrete instances -/

/-- Chronological order on sample buffers: nondecreasing timestamps. -/
def Chronological (samples : List metricSample) : Prop :=
  List.Sorted (fun a b : metricSample => a.timestamp ≤ b.timestamp) samples

instance (samples : List metricSample) : Decidable (Chronological samples) := by
  unfold Chronological List.Sorted
  infer_instance

/-- The sustained-condition property in the specification's words: the
value parses to a threshold, at least one stored sample lies in the
window `[now - duration, now]`, the earliest (minimum-timestamp)
in-window sample is no later than `windowStart + duration/5`, and every
in-window sample satisfies the operator/threshold comparison. -/
def SustainedSpec (parse : String → Option ℚ) (t : MetricTracker)
    (metricName operator value : String) (duration now : Int) : Prop :=
  ∃ threshold, parse value = some threshold ∧
    windowSamples (t metricName) (now - duration) now ≠ [] ∧
    (∃ s ∈ windowSamples (t metricName) (now - duration) now,
      (∀ s' ∈ windowSamples (t metricName) (now - duration) now,
        s.timestamp ≤ s'.timestamp) ∧
      s.timestamp ≤ (now - duration) + duration.tdiv 5) ∧
    ∀ s ∈ windowSamples (t metricName) (now - duration) now,
      compareFloat s.value operator threshold = true

/-- A concrete marshaller whose two cases both fail, for exercising the
degraded-persistence paths. -/
def failingMarshal : GoMarshal AlertAction where
  props := fun _ => none
  actions := fun _ => none

/-- A trivial always-succeeding marshaller. -/
def okMarshal : GoMarshal AlertAction where
  props := fun _ => some "\x7b\x7d"
  actions := fun _ => some "[]"

/-- A tracker holding out-of-order samples for the metric `"m"`, reached
by two `Record` calls with decreasing timestamps. -/
def unsortedTracker : MetricTracker :=
  Record (Record NewMetricTracker "m" 10 70) "m" 10 55

/-- A tracker holding chronologically ordered samples for `"m"`. -/
def sortedTracker : MetricTracker :=
  Record (Record NewMetricTracker "m" 10 55) "m" 10 70

/-- A tracker whose only sample for `"m"` is one second older than the
query time `10 * second`. -/
def recentTracker : MetricTracker :=
  Record NewMetricTracker "m" 10 (9 * second)

/-- A tracker with two samples at timestamp `0` for `"m"`, one satisfying
`> 5` and one violating it. -/
def mixedNowTracker : MetricTracker :=
  Record (Record NewMetricTracker "m" 10 0) "m" 0 0

/-- A concrete event-trigger rule used by scenario witnesses. -/
def demoRule : AlertRule where
  id := 1
  name := "New species detected"
  enabled := true
  objectType := ObjectTypeDetection
  triggerType := TriggerTypeEvent
  eventName := EventDetectionNewSpecies
  metricName := ""
  cooldownSec := 5
  conditions := []
  actions := []

/-- A concrete event matching `demoRule`. -/
def demoEvent : AlertEvent where
  objectType := ObjectTypeDetection
  eventName := EventDetectionNewSpecies
  metricName := ""
  properties := [("species_name", GoValue.str "Robin")]
  timestamp := 0

/-- A fresh engine caching only `demoRule`. -/
def demoEngine : Engine where
  rules := [demoRule]
  cooldowns := fun _ => none
  tracker := NewMetricTracker
  hasActionFunc := true

/-! ## Theorems -/

/-- C3: `EvaluateConditions` returns true iff every condition matches
(AND combination); the empty condition list matches every property map;
and a condition whose named property is absent never matches, for every
operator. -/
theorem evaluateConditions_and_semantics :
    (∀ std conds props, EvaluateConditions std conds props = true ↔
      ∀ c ∈ conds, evaluateCondition std c props = true)
    ∧ (∀ std props, EvaluateConditions std ([] : List AlertCondition) props = true)
    ∧ (∀ std cond props, props.lookup cond.property = none →
      evaluateCondition std cond props = false) := by
  refine ⟨fun std conds props => ?_, fun std props => rfl,
    fun std cond props h => ?_⟩
  · induction conds with
    | nil => simp [EvaluateConditions]
    | cons c rest ih =>
      by_cases hc : evaluateCondition std c props = true
      · simp [EvaluateConditions, hc, ih]
      · simp [EvaluateConditions, hc]
  · simp [evaluateCondition, h]

/-- Witness for C3 at concrete inputs: the empty list matches, a missing
property fails, and the AND characterization holds on a two-condition
list. -/
theorem evaluateConditions_and_semantics_witness :
    EvaluateConditions stdlibModel ([] : List AlertCondition)
        [("species_name", GoValue.str "Robin")] = true
    ∧ evaluateCondition stdlibModel ⟨"nonexistent", OperatorIs, "test", 0⟩
        [("species_name", GoValue.str "Robin")] = false
    ∧ (EvaluateConditions stdlibModel
          [⟨"species_name", OperatorIs, "robin", 0⟩]
          [("species_name", GoValue.str "Robin")] = true ↔
        ∀ c ∈ [(⟨"species_name", OperatorIs, "robin", 0⟩ : AlertCondition)],
          evaluateCondition stdlibModel c
            [("species_name", GoValue.str "Robin")] = true) :=
  ⟨evaluateConditions_and_semantics.2.1 stdlibModel _,
   evaluateConditions_and_semantics.2.2 stdlibModel _ _ (by decide),
   evaluateConditions_and_semantics.1 stdlibModel _ _⟩

/-- C8: for a present property, the `contains` and `not_contains`
operators return opposite results on the same condition; and the `is`
operator matches case-insensitively (`"robin"` matches `"Robin"`). -/
theorem contains_inverse_and_is_case_insensitive :
    (∀ std (cond : AlertCondition) props v, props.lookup cond.property = some v →
      evaluateCondition std { cond with operator := OperatorContains } props
        = !evaluateCondition std { cond with operator := OperatorNotContains } props)
    ∧ (∀ std p d, evaluateCondition std ⟨p, OperatorIs, "robin", d⟩
        [(p, GoValue.str "Robin")] = true) := by
  constructor
  · intro std cond props v h
    simp [evaluateCondition, h, OperatorIs, OperatorIsNot, OperatorContains,
      OperatorNotContains]
  · intro std p d
    have hl : List.lookup p [(p, GoValue.str "Robin")]
        = some (GoValue.str "Robin") := by
      simp [List.lookup]
    simp [evaluateCondition, hl, std.format_str, OperatorIs]
    decide

/-- Witness for C8 at a concrete condition and property map. -/
theorem contains_inverse_witness :
    evaluateCondition stdlibModel
        { property := "species_name", operator := OperatorContains,
          value := "Owl", durationSec := 0 }
        [("species_name", GoValue.str "Great Horned Owl")]
      = !evaluateCondition stdlibModel
          { property := "species_name", operator := OperatorNotContains,
            value := "Owl", durationSec := 0 }
          [("species_name", GoValue.str "Great Horned Owl")]
    ∧ evaluateCondition stdlibModel
        ⟨"species_name", OperatorIs, "robin", 0⟩
        [("species_name", GoValue.str "Robin")] = true :=
  ⟨contains_inverse_and_is_case_insensitive.1 stdlibModel
      ⟨"species_name", OperatorContains, "Owl", 0⟩ _
      (GoValue.str "Great Horned Owl") (by decide),
   contains_inverse_and_is_case_insensitive.2 stdlibModel "species_name" 0⟩

/-- C10: after `Stop()`, `Publish` leaves both the bus and the event
untouched; in particular an unset (zero) timestamp stays unset. -/
theorem publish_stopped_frame (b : BusState) (e : AlertEvent) (now : Int)
    (h : b.stopped = true) :
    Publish b e now = (b, e) ∧ (Publish b e now).2.timestamp = e.timestamp := by
  simp [Publish, h]

/-- Witness for C10: a stopped bus discards the publish and the zero
timestamp of the event is left unset. -/
theorem publish_stopped_frame_witness :
    Publish ⟨true, []⟩ ⟨"stream", "stream.error", "", [], 0⟩ 42
        = (⟨true, []⟩, ⟨"stream", "stream.error", "", [], 0⟩)
    ∧ (Publish ⟨true, []⟩ ⟨"stream", "stream.error", "", [], 0⟩ 42).2.timestamp
        = (0 : Int) :=
  publish_stopped_frame ⟨true, []⟩ ⟨"stream", "stream.error", "", [], 0⟩ 42 rfl

/-- C5: `Publish` either appends the event to the bounded queue (exactly
when the bus is running and the queue is below capacity 1000) or leaves
the queue unchanged (stopped bus, or full queue); and the post-stop drain
loop dispatches every already-enqueued event in order, losing none. -/
theorem publish_enqueue_or_drop_and_drain :
    (∀ b e now, b.stopped = true → Publish b e now = (b, e))
    ∧ (∀ b e now, b.stopped = false → b.queue.length < eventBusBufferSize →
      (Publish b e now).1.queue = b.queue ++ [(Publish b e now).2])
    ∧ (∀ b e now, ¬ b.queue.length < eventBusBufferSize →
      (Publish b e now).1.queue = b.queue)
    ∧ (∀ b e now, (Publish b e now).1.queue = b.queue ++ [(Publish b e now).2]
      ∨ (Publish b e now).1.queue = b.queue)
    ∧ (∀ q, drainLoop q = q) := by
  refine ⟨fun b e now h => by simp [Publish, h],
    fun b e now h hl => by simp [Publish, h, hl],
    fun b e now h => ?_, fun b e now => ?_, fun q => ?_⟩
  · by_cases hs : b.stopped = true
    · simp [Publish, hs]
    · simp only [Bool.not_eq_true] at hs
      simp [Publish, hs, h]
  · by_cases hs : b.stopped = true
    · right; simp [Publish, hs]
    · simp only [Bool.not_eq_true] at hs
      by_cases hl : b.queue.length < eventBusBufferSize
      · left; simp [Publish, hs, hl]
      · right; simp [Publish, hs, hl]
  · induction q with
    | nil => rfl
    | cons e rest ih => simp [drainLoop, ih]

/-- Witness for C5: a running empty bus enqueues, a stopped bus discards,
a full queue drops, and the drain loop returns the queue unchanged. -/
theorem publish_enqueue_or_drop_witness :
    (Publish ⟨false, []⟩ demoEvent 9).1.queue
        = [] ++ [(Publish ⟨false, []⟩ demoEvent 9).2]
    ∧ Publish ⟨true, []⟩ demoEvent 9 = (⟨true, []⟩, demoEvent)
    ∧ (Publish ⟨false, List.replicate 1000 demoEvent⟩ demoEvent 9).1.queue
        = List.replicate 1000 demoEvent
    ∧ drainLoop [demoEvent] = [demoEvent] :=
  ⟨publish_enqueue_or_drop_and_drain.2.1 ⟨false, []⟩ demoEvent 9 rfl (by decide),
   publish_enqueue_or_drop_and_drain.1 ⟨true, []⟩ demoEvent 9 rfl,
   publish_enqueue_or_drop_and_drain.2.2.1 ⟨false, List.replicate 1000 demoEvent⟩
     demoEvent 9 (by rw [List.length_replicate]; decide),
   publish_enqueue_or_drop_and_drain.2.2.2.2 [demoEvent]⟩

/-- C6: `fireRule` degrades a failed properties marshal to the
empty-object placeholder and a failed actions marshal to the empty-array
placeholder; and for every save outcome (in particular a failed save) the
cooldown stays recorded and the action dispatch is still invoked. -/
theorem fireRule_degraded_persistence :
    ∀ (marshal : GoMarshal AlertAction) saveOk e rule event now,
      (marshal.props event.properties = none →
        (fireRule marshal saveOk e rule event now).2.history.eventData = "\x7b\x7d")
      ∧ (marshal.actions rule.actions = none →
        (fireRule marshal saveOk e rule event now).2.history.actions = "[]")
      ∧ (fireRule marshal saveOk e rule event now).1.cooldowns rule.id = some now
      ∧ (fireRule marshal saveOk e rule event now).2.dispatched = e.hasActionFunc
      ∧ (fireRule marshal saveOk e rule event now).2.saved = saveOk := by
  intro marshal saveOk e rule event now
  refine ⟨fun h => ?_, fun h => ?_, ?_, rfl, rfl⟩
  · simp [fireRule, h]
  · simp [fireRule, h]
  · simp [fireRule]

/-- Witness for C6: both marshals fail and the save fails, yet the
placeholders are used, the cooldown is recorded, and dispatch happens. -/
theorem fireRule_degraded_persistence_witness :
    (fireRule failingMarshal false demoEngine demoRule demoEvent 7).2.history.eventData
        = "\x7b\x7d"
    ∧ (fireRule failingMarshal false demoEngine demoRule demoEvent 7).2.history.actions
        = "[]"
    ∧ (fireRule failingMarshal false demoEngine demoRule demoEvent 7).1.cooldowns
        demoRule.id = some 7
    ∧ (fireRule failingMarshal false demoEngine demoRule demoEvent 7).2.dispatched
        = demoEngine.hasActionFunc := by
  have h := fireRule_degraded_persistence failingMarshal false demoEngine
    demoRule demoEvent 7
  exact ⟨h.1 rfl, h.2.1 rfl, h.2.2.1, h.2.2.2.1⟩

/-- Every sample surviving the front eviction of a chronological buffer
with a fresh sample appended has a timestamp at least `cutoff`. -/
theorem evictOldSamples_ge (cutoff : Int) :
    ∀ (old : List metricSample) (fresh : metricSample),
      Chronological old → cutoff ≤ fresh.timestamp →
      ∀ s ∈ evictOldSamples cutoff (old ++ [fresh]), cutoff ≤ s.timestamp := by
  intro old
  induction old with
  | nil =>
    intro fresh _ hf s hs
    simp only [List.nil_append, evictOldSamples] at hs
    rw [if_neg (by omega)] at hs
    have h1 : s = fresh := List.mem_singleton.mp hs
    rw [h1]
    exact hf
  | cons a old ih =>
    intro fresh hsort hf s hs
    simp only [List.cons_append, evictOldSamples] at hs
    have hsort' := List.sorted_cons.mp hsort
    by_cases ha : a.timestamp < cutoff
    · rw [if_pos ha] at hs
      exact ih fresh hsort'.2 hf s hs
    · rw [if_neg ha] at hs
      rcases List.mem_cons.mp hs with rfl | hs'
      · omega
      · rcases List.mem_append.mp hs' with hmem | hmem
        · have h2 : a.timestamp ≤ s.timestamp := hsort'.1 s hmem
          omega
        · have h1 : s = fresh := List.mem_singleton.mp hmem
          rw [h1]
          exact hf

/-- After `Record` on a chronological buffer, no surviving sample is
older than the 30-minute cutoff. -/
theorem record_age_of_chronological (t : MetricTracker) (m : String)
    (v : ℚ) (ts : Int) (hs : Chronological (t m)) :
    ∀ s ∈ Record t m v ts m, ts - maxSampleAge ≤ s.timestamp := by
  intro s hmem
  have hbase : ∀ x ∈ evictOldSamples (ts - maxSampleAge) (t m ++ [⟨v, ts⟩]),
      ts - maxSampleAge ≤ x.timestamp := by
    apply evictOldSamples_ge _ _ _ hs
    show ts - maxSampleAge ≤ ts
    have h0 : (0 : Int) ≤ maxSampleAge := by decide
    omega
  simp only [Record, if_pos] at hmem
  split at hmem
  · exact hbase s (List.mem_of_mem_drop hmem)
  · exact hbase s hmem

/-- After `Record`, the recorded metric's buffer holds at most the
sample cap. -/
theorem record_length_le (t : MetricTracker) (m : String) (v : ℚ)
    (ts : Int) : (Record t m v ts m).length ≤ maxSamplesPerMetric := by
  simp only [Record, if_pos]
  split
  · rw [List.length_drop]
    omega
  · omega

/-- `Record` leaves the buffers of all other metrics unchanged. -/
theorem record_frame (t : MetricTracker) (m : String) (v : ℚ) (ts : Int)
    (name : String) (h : name ≠ m) : Record t m v ts name = t name := by
  simp [Record, h]

/-- C4 (amended): after `Record(metric, value, timestamp)` the metric's
buffer holds at most 120 samples and — provided the buffer was in
chronological order before the call — no sample older than
`timestamp - 30min`; buffers of all other metrics are unchanged. -/
theorem record_bound_age_frame :
    ∀ (t : MetricTracker) (m : String) (v : ℚ) (ts : Int),
      (Record t m v ts m).length ≤ maxSamplesPerMetric
      ∧ (Chronological (t m) →
          ∀ s ∈ Record t m v ts m, ts - maxSampleAge ≤ s.timestamp)
      ∧ ∀ name, name ≠ m → Record t m v ts name = t name :=
  fun t m v ts =>
    ⟨record_length_le t m v ts,
     fun h s hsmem => record_age_of_chronological t m v ts h s hsmem,
     fun name h => record_frame t m v ts name h⟩

/-- Counterexample to C4 as stated: eviction only removes a leading run
of old samples, so in a buffer reached by out-of-order `Record` calls a
sample older than the 30-minute cutoff survives the next `Record`. -/
theorem record_age_counterexample :
    ∃ s ∈ Record (Record (Record NewMetricTracker "m" 1 (2 * maxSampleAge))
        "m" 1 0) "m" 1 (maxSampleAge + 5) "m",
      s.timestamp < (maxSampleAge + 5) - maxSampleAge := by
  decide

/-- Witness for C4 (amended) at a concrete chronological tracker. -/
theorem record_bound_age_frame_witness :
    Chronological (sortedTracker "m")
    ∧ (Record sortedTracker "m" 10 80 "m").length ≤ maxSamplesPerMetric
    ∧ (∀ s ∈ Record sortedTracker "m" 10 80 "m",
        (80 : Int) - maxSampleAge ≤ s.timestamp)
    ∧ Record sortedTracker "m" 10 80 "x" = sortedTracker "x" := by
  have h := record_bound_age_frame sortedTracker "m" 10 80
  exact ⟨by decide, h.1, h.2.1 (by decide), h.2.2 "x" (by decide)⟩

/-- In a chronological list the head carries the minimum timestamp. -/
theorem chronological_head_min (first : metricSample)
    (rest : List metricSample) (h : Chronological (first :: rest)) :
    ∀ s' ∈ first :: rest, first.timestamp ≤ s'.timestamp := by
  intro s' hs'
  rcases List.mem_cons.mp hs' with rfl | hmem
  · exact le_refl _
  · exact (List.sorted_cons.mp h).1 s' hmem

/-- For a chronological window, "the minimum-timestamp sample is within
the bound" is the same as "the head sample is within the bound". -/
theorem min_le_iff_head_le (first : metricSample)
    (rest : List metricSample) (h : Chronological (first :: rest))
    (bound : Int) :
    (∃ s ∈ first :: rest,
      (∀ s' ∈ first :: rest, s.timestamp ≤ s'.timestamp)
      ∧ s.timestamp ≤ bound)
    ↔ first.timestamp ≤ bound := by
  constructor
  · rintro ⟨s, hsmem, hmin, hle⟩
    have h1 : first.timestamp ≤ s.timestamp :=
      chronological_head_min first rest h s hsmem
    omega
  · intro hle
    exact ⟨first, List.mem_cons_self _ _,
      chronological_head_min first rest h, hle⟩

/-- The window-selection filter of a chronological buffer stays
chronological. -/
theorem chronological_windowSamples (samples : List metricSample)
    (windowStart now : Int) (h : Chronological samples) :
    Chronological (windowSamples samples windowStart now) :=
  List.Pairwise.filter _ h

/-- C1 (amended): for a metric whose stored samples are in chronological
order, `IsSustained` returns true iff the value parses, the window is
nonempty, the earliest in-window sample is no later than
`windowStart + duration/5`, and every in-window sample satisfies the
comparison. -/
theorem isSustained_characterization_of_sorted
    (parse : String → Option ℚ) (t : MetricTracker) (m op v : String)
    (D T : Int) (hD : 0 < D) (hs : Chronological (t m)) :
    IsSustained parse t m op v D T = true ↔
      SustainedSpec parse t m op v D T := by
  unfold IsSustained SustainedSpec
  by_cases he : (t m).isEmpty
  · have ht : t m = [] := List.isEmpty_iff.mp he
    rw [if_pos he]
    simp [windowSamples, ht]
  · rw [if_neg he]
    rcases hp : parse v with _ | th
    · simp
    · have hws : Chronological (windowSamples (t m) (T - D) T) :=
        chronological_windowSamples _ _ _ hs
      rcases hw : windowSamples (t m) (T - D) T with _ | ⟨first, rest⟩
      · simp [hw]
      · rw [hw] at hws
        dsimp only []
        simp only [Option.some_inj, exists_eq_left', ne_eq, reduceCtorEq,
          not_false_eq_true, true_and]
        rw [min_le_iff_head_le first rest hws ((T - D) + D.tdiv 5)]
        by_cases hg : first.timestamp > (T - D) + D.tdiv 5
        · rw [if_pos (by simpa using hg)]
          simp
          intro h
          omega
        · rw [if_neg (by simpa using hg)]
          rw [List.all_eq_true]
          simp only [Bool.not_eq_true] at hg
          constructor
          · intro hall
            exact ⟨by omega, hall⟩
          · rintro ⟨-, hall⟩
            exact hall

/-- Counterexample to C1 as stated: in an out-of-order buffer (reached
by two `Record` calls) the earliest in-window sample is within the grace
period and all in-window samples satisfy the comparison, yet
`IsSustained` returns false, because the code checks the first in-window
sample in buffer order, not the earliest. -/
theorem isSustained_earliest_counterexample :
    (0 : Int) < 50
    ∧ SustainedSpec parseFloatModel unsortedTracker "m"
        OperatorGreaterThan "5" 50 100
    ∧ IsSustained parseFloatModel unsortedTracker "m"
        OperatorGreaterThan "5" 50 100 = false := by
  refine ⟨by decide, ⟨5, by decide, by decide, by decide, by decide⟩, by decide⟩

/-- Witness for C1 (amended) at a concrete chronological tracker. -/
theorem isSustained_characterization_witness :
    (0 : Int) < 50
    ∧ Chronological (sortedTracker "m")
    ∧ (IsSustained parseFloatModel sortedTracker "m"
          OperatorGreaterThan "5" 50 100 = true ↔
        SustainedSpec parseFloatModel sortedTracker "m"
          OperatorGreaterThan "5" 50 100) :=
  ⟨by decide, by decide,
   isSustained_characterization_of_sorted parseFloatModel sortedTracker
     "m" OperatorGreaterThan "5" 50 100 (by decide) (by decide)⟩

/-- C7 (amended): with duration 0 the window degenerates to the single
instant `now`: `IsSustained` returns true iff the value parses, at least
one sample has timestamp exactly `now`, and every sample at `now`
satisfies the comparison.  The coverage check is vacuous here, so no
chronological assumption is needed. -/
theorem isSustained_zero_duration
    (parse : String → Option ℚ) (t : MetricTracker) (m op v : String)
    (now : Int) :
    IsSustained parse t m op v 0 now = true ↔
      (∃ threshold, parse v = some threshold ∧
        windowSamples (t m) now now ≠ [] ∧
        ∀ s ∈ windowSamples (t m) now now,
          compareFloat s.value op threshold = true) := by
  unfold IsSustained
  rw [show now - (0 : Int) = now by omega]
  by_cases he : (t m).isEmpty
  · have ht : t m = [] := List.isEmpty_iff.mp he
    rw [if_pos he]
    simp [windowSamples, ht]
  · rw [if_neg he]
    rcases hp : parse v with _ | th
    · simp
    · rcases hw : windowSamples (t m) now now with _ | ⟨first, rest⟩
      · simp [hw]
      · dsimp only []
        simp only [Option.some_inj, exists_eq_left', ne_eq, reduceCtorEq,
          not_false_eq_true, true_and]
        have hfirst : first ∈ windowSamples (t m) now now := by
          rw [hw]; exact List.mem_cons_self _ _
        have hle : first.timestamp ≤ now := by
          have := (List.mem_filter.mp hfirst).2
          simp only [Bool.and_eq_true, decide_eq_true_eq] at this
          exact this.2
        rw [if_neg (by simp; omega)]
        rw [List.all_eq_true]

/-- Witness for C7 (amended): the duration-0 characterization at a
concrete tracker and query time. -/
theorem isSustained_zero_duration_witness :
    IsSustained parseFloatModel mixedNowTracker "m"
        OperatorGreaterThan "5" 0 0 = true ↔
      (∃ threshold, parseFloatModel "5" = some threshold ∧
        windowSamples (mixedNowTracker "m") 0 0 ≠ [] ∧
        ∀ s ∈ windowSamples (mixedNowTracker "m") 0 0,
          compareFloat s.value OperatorGreaterThan threshold = true) :=
  isSustained_zero_duration parseFloatModel mixedNowTracker "m"
    OperatorGreaterThan "5" 0

/-- Counterexample to C7 as stated: a satisfying sample one second old is
not sufficient for `IsSustained` with duration 0 (the window contains
only the exact instant `now`); and even a satisfying sample at `now` is
not sufficient when another sample at `now` violates the comparison. -/
theorem isSustained_zero_counterexample :
    (parseFloatModel "5" = some 5
      ∧ (∃ s ∈ recentTracker "m", s.timestamp ≤ 10 * second
          ∧ compareFloat s.value OperatorGreaterThan 5 = true)
      ∧ IsSustained parseFloatModel recentTracker "m"
          OperatorGreaterThan "5" 0 (10 * second) = false)
    ∧ ((∃ s ∈ mixedNowTracker "m", s.timestamp = 0
          ∧ compareFloat s.value OperatorGreaterThan 5 = true)
      ∧ IsSustained parseFloatModel mixedNowTracker "m"
          OperatorGreaterThan "5" 0 0 = false) := by
  exact ⟨⟨by decide, by decide, by decide⟩, ⟨by decide, by decide⟩⟩

/-- The metric-recording prologue changes only the tracker. -/
theorem recordMetric_frame (std : GoStdlib) (e : Engine) (ev : AlertEvent) :
    (recordMetric std e ev).cooldowns = e.cooldowns
    ∧ (recordMetric std e ev).rules = e.rules
    ∧ (recordMetric std e ev).hasActionFunc = e.hasActionFunc := by
  refine ⟨?_, ?_, ?_⟩ <;>
    · unfold recordMetric
      repeat' split
      all_goals rfl

/-- The engine state after `fireRule`: only the cooldown map changed. -/
theorem fireRule_fst (marshal : GoMarshal AlertAction) (saveOk : Bool)
    (e : Engine) (r : AlertRule) (ev : AlertEvent) (now : Int) :
    (fireRule marshal saveOk e r ev now).1 =
      { e with cooldowns :=
          fun id => if id = r.id then some now else e.cooldowns id } := rfl

/-- The cooldown map after `fireRule`. -/
theorem fireRule_cooldowns (marshal : GoMarshal AlertAction)
    (saveOk : Bool) (e : Engine) (r : AlertRule) (ev : AlertEvent)
    (now : Int) :
    (fireRule marshal saveOk e r ev now).1.cooldowns =
      fun id => if id = r.id then some now else e.cooldowns id := rfl

/-- `isInCooldown` depends only on the cooldown map. -/
theorem isInCooldown_congr (e₁ e₂ : Engine)
    (h : e₁.cooldowns = e₂.cooldowns) (id : Nat) (cd now : Int) :
    isInCooldown e₁ id cd now = isInCooldown e₂ id cd now := by
  unfold isInCooldown
  rw [h]

/-- `isInCooldown` with a recorded last-fired time and positive cooldown
reduces to the elapsed-time comparison. -/
theorem isInCooldown_some (e : Engine) (id : Nat) (cd now t0 : Int)
    (hcd : 0 < cd) (hc0 : e.cooldowns id = some t0) :
    isInCooldown e id cd now = decide (now - t0 < cd * second) := by
  unfold isInCooldown
  rw [if_neg (by omega), hc0]

/-- `isInCooldown` with no recorded fire is false. -/
theorem isInCooldown_no_entry (e : Engine) (id : Nat) (cd now : Int)
    (hc0 : e.cooldowns id = none) :
    isInCooldown e id cd now = false := by
  unfold isInCooldown
  by_cases hcd : cd ≤ 0
  · rw [if_pos hcd]
  · rw [if_neg hcd, hc0]

/-- `isInCooldown` only reads the cooldown entry of the queried rule. -/
theorem isInCooldown_congr_at (e₁ e₂ : Engine) (id : Nat)
    (h : e₁.cooldowns id = e₂.cooldowns id) (cd now : Int) :
    isInCooldown e₁ id cd now = isInCooldown e₂ id cd now := by
  unfold isInCooldown
  rw [h]

/-- Firing any rule at time `now` cannot release a cooldown that is
active at `now`. -/
theorem isInCooldown_fireRule (marshal : GoMarshal AlertAction)
    (saveOk : Bool) (e : Engine) (r : AlertRule) (ev : AlertEvent)
    (now : Int) (id : Nat) (cd : Int)
    (h : isInCooldown e id cd now = true) :
    isInCooldown (fireRule marshal saveOk e r ev now).1 id cd now = true := by
  have hcd : 0 < cd := by
    by_contra hcontra
    unfold isInCooldown at h
    rw [if_pos (by omega)] at h
    exact absurd h (by decide)
  by_cases hid : id = r.id
  · subst hid
    have hc : (fireRule marshal saveOk e r ev now).1.cooldowns r.id
        = some now := by
      rw [fireRule_cooldowns]
      simp
    rw [isInCooldown_some _ r.id cd now now hcd hc]
    have hpos : (0 : Int) < cd * second := mul_pos hcd (by decide)
    simp only [decide_eq_true_eq]
    omega
  · have hc : (fireRule marshal saveOk e r ev now).1.cooldowns id
        = e.cooldowns id := by
      rw [fireRule_cooldowns]
      simp [hid]
    rw [isInCooldown_congr_at _ e id hc cd now]
    exact h

/-- The rule loop never fires a rule identity whose cooldown is active
at the handling time. -/
theorem handleRules_skips_in_cooldown (std : GoStdlib)
    (marshal : GoMarshal AlertAction) (saveOk : Bool) (ev : AlertEvent)
    (now : Int) (id : Nat) (cd : Int) :
    ∀ (rules : List AlertRule) (e : Engine),
      isInCooldown e id cd now = true →
      ∀ p ∈ (handleRules std marshal saveOk ev now e rules).2,
        p.1.id = id → p.1.cooldownSec = cd → False := by
  intro rules
  induction rules with
  | nil =>
    intro e h p hp
    simp [handleRules] at hp
  | cons r rest ih =>
    intro e h p hp hid hcd
    simp only [handleRules] at hp
    by_cases hg : (ruleMatches std e r ev
        && !isInCooldown e r.id r.cooldownSec now) = true
    · rw [if_pos hg] at hp
      simp only [List.mem_cons] at hp
      rcases hp with rfl | hp'
      · dsimp only at hid hcd
        subst hid
        subst hcd
        rw [Bool.and_eq_true] at hg
        have hnc := hg.2
        rw [h] at hnc
        exact absurd hnc (by decide)
      · exact ih (fireRule marshal saveOk e r ev now).1
          (isInCooldown_fireRule marshal saveOk e r ev now _ _ h) p hp' hid hcd
    · rw [if_neg hg] at hp
      exact ih e h p hp hid hcd

/-- Unfolding the rule loop on a one-rule cache. -/
theorem handleRules_singleton (std : GoStdlib)
    (marshal : GoMarshal AlertAction) (saveOk : Bool) (ev : AlertEvent)
    (now : Int) (e : Engine) (r : AlertRule) :
    handleRules std marshal saveOk ev now e [r] =
      if ruleMatches std e r ev
          && !isInCooldown e r.id r.cooldownSec now then
        ((fireRule marshal saveOk e r ev now).1,
         [(r, (fireRule marshal saveOk e r ev now).2)])
      else (e, []) := by
  simp only [handleRules]

/-- Unfolding `HandleEvent` on a one-rule cache. -/
theorem HandleEvent_singleton (std : GoStdlib)
    (marshal : GoMarshal AlertAction) (saveOk : Bool) (e : Engine)
    (r : AlertRule) (ev : AlertEvent) (now : Int) (hr : e.rules = [r]) :
    HandleEvent std marshal saveOk e ev now =
      if ruleMatches std (recordMetric std e ev) r ev
          && !isInCooldown e r.id r.cooldownSec now then
        ((fireRule marshal saveOk (recordMetric std e ev) r ev now).1,
         [(r, (fireRule marshal saveOk (recordMetric std e ev) r ev now).2)])
      else (recordMetric std e ev, []) := by
  simp only [HandleEvent]
  rw [(recordMetric_frame std e ev).2.1, hr, handleRules_singleton]
  rw [isInCooldown_congr _ _ (recordMetric_frame std e ev).1
    r.id r.cooldownSec now]

/-- On a one-rule cache, a matching rule whose cooldown record is
`some t0` (with positive `cooldownSec`) fires iff the cooldown expired;
the fired-list length is 1 or 0 accordingly, and on a fire the cooldown
is re-stamped to the handling time while the rule cache is preserved. -/
theorem handleEvent_cooldown_cases (std : GoStdlib)
    (marshal : GoMarshal AlertAction) (saveOk : Bool) (e : Engine)
    (rule : AlertRule) (ev : AlertEvent) (t0 t : Int)
    (hr : e.rules = [rule]) (hcd : 0 < rule.cooldownSec)
    (hc0 : e.cooldowns rule.id = some t0)
    (hm : ruleMatches std (recordMetric std e ev) rule ev = true) :
    ((HandleEvent std marshal saveOk e ev t).2 ≠ [] ↔
      rule.cooldownSec * second ≤ t - t0)
    ∧ (HandleEvent std marshal saveOk e ev t).2.length
        = (if rule.cooldownSec * second ≤ t - t0 then 1 else 0) := by
  rw [HandleEvent_singleton std marshal saveOk e rule ev t hr, hm,
    isInCooldown_some e rule.id rule.cooldownSec t t0 hcd hc0]
  by_cases hlt : t - t0 < rule.cooldownSec * second
  · rw [decide_eq_true hlt]
    simp only [Bool.not_true, Bool.and_false]
    rw [if_neg (by decide)]
    constructor
    · constructor
      · intro hne
        exact absurd rfl hne
      · intro hge
        exact absurd hge (by omega)
    · rw [if_neg (by omega)]
      rfl
  · rw [decide_eq_false hlt]
    simp only [Bool.not_false, Bool.and_true]
    rw [if_pos trivial]
    constructor
    · constructor
      · intro _
        omega
      · intro _
        simp
    · rw [if_pos (by omega)]
      rfl

/-- On a one-rule cache, a matching rule not currently in cooldown fires
exactly once, preserving the rule cache and stamping the cooldown. -/
theorem handleEvent_fires_free (std : GoStdlib)
    (marshal : GoMarshal AlertAction) (saveOk : Bool) (e : Engine)
    (rule : AlertRule) (ev : AlertEvent) (t : Int)
    (hr : e.rules = [rule])
    (hfree : isInCooldown e rule.id rule.cooldownSec t = false)
    (hm : ruleMatches std (recordMetric std e ev) rule ev = true) :
    (HandleEvent std marshal saveOk e ev t).2.length = 1
    ∧ (HandleEvent std marshal saveOk e ev t).1.rules = e.rules
    ∧ (HandleEvent std marshal saveOk e ev t).1.cooldowns rule.id = some t := by
  rw [HandleEvent_singleton std marshal saveOk e rule ev t hr, hm, hfree]
  simp only [Bool.not_false, Bool.and_true]
  rw [if_pos trivial]
  refine ⟨rfl, ?_, ?_⟩
  · rw [fireRule_fst]
    exact (recordMetric_frame std e ev).2.1
  · rw [fireRule_cooldowns]
    simp

/-- C2: for a rule with positive `cooldownSec`, after it fired at `t0` a
later matching event at `t` fires again iff `t - t0 ≥ cooldownSec`; for
`cooldownSec ≤ 0` every matching event fires; and two matching events
spaced less than (resp. at least) `cooldownSec` apart produce exactly one
(resp. two) fires. -/
theorem cooldown_gating :
    (∀ std marshal saveOk (e : Engine) rule ev (t0 t : Int),
      e.rules = [rule] → 0 < rule.cooldownSec →
      e.cooldowns rule.id = some t0 →
      ruleMatches std (recordMetric std e ev) rule ev = true →
      ((HandleEvent std marshal saveOk e ev t).2 ≠ [] ↔
        rule.cooldownSec * second ≤ t - t0))
    ∧ (∀ std marshal saveOk (e : Engine) rule ev (t : Int),
      e.rules = [rule] → rule.cooldownSec ≤ 0 →
      ruleMatches std (recordMetric std e ev) rule ev = true →
      (HandleEvent std marshal saveOk e ev t).2.length = 1)
    ∧ (∀ std marshal saveOk (e : Engine) rule ev₁ ev₂ (t₁ t₂ : Int),
      e.rules = [rule] → 0 < rule.cooldownSec →
      e.cooldowns rule.id = none →
      ruleMatches std (recordMetric std e ev₁) rule ev₁ = true →
      ruleMatches std
        (recordMetric std (HandleEvent std marshal saveOk e ev₁ t₁).1 ev₂)
        rule ev₂ = true →
      (HandleEvent std marshal saveOk e ev₁ t₁).2.length = 1
      ∧ (t₂ - t₁ < rule.cooldownSec * second →
          (HandleEvent std marshal saveOk
            (HandleEvent std marshal saveOk e ev₁ t₁).1 ev₂ t₂).2.length = 0)
      ∧ (rule.cooldownSec * second ≤ t₂ - t₁ →
          (HandleEvent std marshal saveOk
            (HandleEvent std marshal saveOk e ev₁ t₁).1 ev₂ t₂).2.length = 1)) := by
  refine ⟨?_, ?_, ?_⟩
  · intro std marshal saveOk e rule ev t0 t hr hcd hc0 hm
    exact (handleEvent_cooldown_cases std marshal saveOk e rule ev t0 t
      hr hcd hc0 hm).1
  · intro std marshal saveOk e rule ev t hr hcd hm
    have hfree : isInCooldown e rule.id rule.cooldownSec t = false := by
      unfold isInCooldown
      rw [if_pos hcd]
    exact (handleEvent_fires_free std marshal saveOk e rule ev t
      hr hfree hm).1
  · intro std marshal saveOk e rule ev₁ ev₂ t₁ t₂ hr hcd hc0 hm₁ hm₂
    have hfree : isInCooldown e rule.id rule.cooldownSec t₁ = false :=
      isInCooldown_no_entry e rule.id rule.cooldownSec t₁ hc0
    obtain ⟨hlen₁, hrules₁, hcool₁⟩ :=
      handleEvent_fires_free std marshal saveOk e rule ev₁ t₁ hr hfree hm₁
    have hr₁ : (HandleEvent std marshal saveOk e ev₁ t₁).1.rules = [rule] := by
      rw [hrules₁, hr]
    have hcases := handleEvent_cooldown_cases std marshal saveOk
      (HandleEvent std marshal saveOk e ev₁ t₁).1 rule ev₂ t₁ t₂
      hr₁ hcd hcool₁ hm₂
    refine ⟨hlen₁, fun hlt => ?_, fun hge => ?_⟩
    · rw [hcases.2, if_neg (by omega)]
    · rw [hcases.2, if_pos hge]

/-- Witness for C2: with the concrete demo rule (cooldown 5 s) the first
matching event fires and a second one 1 s later is suppressed. -/
theorem cooldown_gating_witness :
    (HandleEvent stdlibModel okMarshal true demoEngine demoEvent 0).2.length = 1
    ∧ (HandleEvent stdlibModel okMarshal true
        (HandleEvent stdlibModel okMarshal true demoEngine demoEvent 0).1
        demoEvent second).2.length = 0 := by
  have h := cooldown_gating.2.2 stdlibModel okMarshal true demoEngine
    demoRule demoEvent demoEvent 0 second rfl (by decide) rfl
    (by decide) (by decide)
  exact ⟨h.1, h.2.1 (by decide)⟩

/-- C9: `TestFireRule` takes the full fire path: it stamps the rule's
in-memory cooldown with the current time and builds the history row from
the synthetic event with properties `{"test": true}`; consequently, for a
rule with positive `cooldownSec`, a real matching event within the
cooldown window after a test fire cannot fire that rule. -/
theorem testFireRule_fires_for_real :
    ∀ std (marshal : GoMarshal AlertAction) (saveOk saveOk₂ : Bool)
      (e : Engine) (rule : AlertRule) (t0 : Int) (ev : AlertEvent) (t : Int),
      (TestFireRule marshal saveOk e rule t0).1.cooldowns rule.id = some t0
      ∧ (TestFireRule marshal saveOk e rule t0).2.history.ruleID = rule.id
      ∧ (TestFireRule marshal saveOk e rule t0).2.history.eventData
          = (match marshal.props [("test", GoValue.bool true)] with
             | some s => s
             | none => "\x7b\x7d")
      ∧ (0 < rule.cooldownSec → t - t0 < rule.cooldownSec * second →
          ∀ p ∈ (HandleEvent std marshal saveOk₂
              (TestFireRule marshal saveOk e rule t0).1 ev t).2,
            p.1.id = rule.id → p.1.cooldownSec = rule.cooldownSec → False) := by
  intro std marshal saveOk saveOk₂ e rule t0 ev t
  refine ⟨?_, rfl, rfl, ?_⟩
  · show (fireRule marshal saveOk e rule _ t0).1.cooldowns rule.id = some t0
    rw [fireRule_cooldowns]
    simp
  · intro hcd hlt p hp hid hcdp
    have hcool : isInCooldown (TestFireRule marshal saveOk e rule t0).1
        rule.id rule.cooldownSec t = true := by
      unfold isInCooldown
      rw [if_neg (by omega)]
      have hc : (TestFireRule marshal saveOk e rule t0).1.cooldowns rule.id
          = some t0 := by
        show (fireRule marshal saveOk e rule _ t0).1.cooldowns rule.id = some t0
        rw [fireRule_cooldowns]
        simp
      rw [hc]
      simp only [decide_eq_true_eq]
      omega
    have hcool' : isInCooldown
        (recordMetric std (TestFireRule marshal saveOk e rule t0).1 ev)
        rule.id rule.cooldownSec t = true := by
      rw [isInCooldown_congr _ _
        (recordMetric_frame std (TestFireRule marshal saveOk e rule t0).1 ev).1]
      exact hcool
    simp only [HandleEvent] at hp
    exact handleRules_skips_in_cooldown std marshal saveOk₂ ev t
      rule.id rule.cooldownSec _ _ hcool' p hp hid hcdp

/-- Witness for C9: after a test fire of the demo rule at time 0, its
cooldown reads 0 and a real matching event 1 s later fires nothing for
that rule identity. -/
theorem testFireRule_fires_for_real_witness :
    (TestFireRule okMarshal true demoEngine demoRule 0).1.cooldowns
        demoRule.id = some 0
    ∧ (TestFireRule okMarshal true demoEngine demoRule 0).2.history.ruleID
        = demoRule.id
    ∧ (∀ p ∈ (HandleEvent stdlibModel okMarshal true
          (TestFireRule okMarshal true demoEngine demoRule 0).1
          demoEvent second).2,
        p.1.id = demoRule.id → p.1.cooldownSec = demoRule.cooldownSec →
        False) := by
  have h := testFireRule_fires_for_real stdlibModel okMarshal true true
    demoEngine demoRule 0 demoEvent second
  exact ⟨h.1, h.2.1, h.2.2.2 (by decide) (by decide)⟩

end Alerting
